import Mathlib

/-
  Verification development for the Cyan fluent assertion library
  (src/src/cyan/Cyan.ts).  The file Cyan.ts contains two duplicated
  variants of the namespace; following the specification, the second,
  richer variant (Box / GiftBox / Expectation / DelayedExpectation /
  Engine) is the canonical target and is what the definitions below
  embed.  The earlier variant is embedded only where a claim compares
  the two (toBeV1).
-/

namespace Cyan

/-- Defunctionalised codes for JavaScript function values that occur as
properties of subjects (callables reached through invokes).  Functions
supplied by the caller to apply, map, each and filter are host-language
functions and are embedded as Lean functions instead. -/
inductive FnCode where
  | trueFn
  | idFn
  | squareFn
deriving DecidableEq

/-- Model of the JavaScript runtime values the library manipulates.
vNullSubject is the NullSubject sentinel instance produced by
Box.empty().  vPromise models a promise-like value by the time
(milliseconds from the start of the chain) at which it resolves and the
value it resolves to; reference identity of promises is not modelled.
vNum models JS numbers as integers (no claim involves fractional values
or NaN). -/
inductive Value where
  | vUndefined
  | vNull
  | vBool (b : Bool)
  | vNum (n : Int)
  | vStr (s : String)
  | vArr (elems : List Value)
  | vObj (fields : List (String × Value))
  | vFun (code : FnCode)
  | vPromise (resolveAt : Nat) (resolved : Value)
  | vNullSubject

/-- JavaScript truthiness of a value (NaN is not representable in the
vNum model; every other falsy value is covered). -/
def isTruthyVal : Value → Bool
  | .vUndefined => false
  | .vNull => false
  | .vBool b => b
  | .vNum n => !(n == 0)
  | .vStr s => !(s == "")
  | _ => true

/-- String coercion of a value, as performed by JS property-key
conversion and by string concatenation.  Composite values (arrays,
objects) are approximated by fixed placeholders; no claim depends on
the precise coercion of a composite key. -/
def jsToString : Value → String
  | .vUndefined => "undefined"
  | .vNull => "null"
  | .vBool b => cond b "true" "false"
  | .vNum n => toString n
  | .vStr s => s
  | .vArr _ => "[array]"
  | .vObj _ => "[object Object]"
  | .vFun _ => "[function]"
  | .vPromise _ _ => "[object Promise]"
  | .vNullSubject => "[object Object]"

mutual
/-- Model of JSON.stringify as used by Expectation.fail.  For undefined
and function values JSON.stringify yields no string, and the
surrounding Array.prototype.join renders that as the empty string, so
those cases map to the empty string here.  String escaping is omitted
(no claim stringifies a string needing escapes). -/
def jsonStringify : Value → String
  | .vUndefined => ""
  | .vNull => "null"
  | .vBool b => cond b "true" "false"
  | .vNum n => toString n
  | .vStr s => "\x22" ++ s ++ "\x22"
  | .vArr xs => "[" ++ jsonStringifyList xs ++ "]"
  | .vObj fs => "\x7b" ++ jsonStringifyFields fs ++ "\x7d"
  | .vFun _ => ""
  | .vPromise _ _ => "\x7b\x7d"
  | .vNullSubject => "\x7b\x7d"

/-- Elements of a JSON array; undefined and function elements render as
null, matching JSON.stringify. -/
def jsonStringifyList : List Value → String
  | [] => ""
  | x :: xs =>
    let hd := match x with
      | .vUndefined => "null"
      | .vFun _ => "null"
      | _ => jsonStringify x
    match xs with
    | [] => hd
    | _ => hd ++ "," ++ jsonStringifyList xs

/-- Fields of a JSON object; undefined-valued and function-valued keys
are omitted, matching JSON.stringify. -/
def jsonStringifyFields : List (String × Value) → String
  | [] => ""
  | (k, v) :: fs =>
    match v with
    | .vUndefined => jsonStringifyFields fs
    | .vFun _ => jsonStringifyFields fs
    | _ =>
      let entry := "\x22" ++ k ++ "\x22:" ++ jsonStringify v
      let rest := jsonStringifyFields fs
      if rest == "" then entry else entry ++ "," ++ rest
end

mutual
/-- Model of the deep-equal package used by toBe: structural equality
on nested arrays and records.  The loose primitive coercions of the
package default mode are modelled only for null == undefined; record
comparison is field-order-sensitive and class-aware (distinct classes
such as the sentinel or promises never compare equal to plain
records).  Every claim that involves deepEquals is parametric in it
(the same function appears on both sides of the property), so these
simplifications do not affect any verdict. -/
def deepEquals : Value → Value → Bool
  | .vUndefined, .vUndefined => true
  | .vUndefined, .vNull => true
  | .vNull, .vUndefined => true
  | .vNull, .vNull => true
  | .vBool a, .vBool b => a == b
  | .vNum a, .vNum b => a == b
  | .vStr a, .vStr b => a == b
  | .vArr xs, .vArr ys => deepEqualsList xs ys
  | .vObj fs, .vObj gs => deepEqualsFields fs gs
  | .vFun a, .vFun b => a == b
  | .vPromise t1 v1, .vPromise t2 v2 => t1 == t2 && deepEquals v1 v2
  | .vNullSubject, .vNullSubject => true
  | _, _ => false

/-- Elementwise deep equality of arrays. -/
def deepEqualsList : List Value → List Value → Bool
  | [], [] => true
  | x :: xs, y :: ys => deepEquals x y && deepEqualsList xs ys
  | _, _ => false

/-- Fieldwise deep equality of records. -/
def deepEqualsFields : List (String × Value) → List (String × Value) → Bool
  | [], [] => true
  | (k, v) :: fs, (k2, v2) :: gs => k == k2 && deepEquals v v2 && deepEqualsFields fs gs
  | _, _ => false
end

/-- Categories of runtime failures, labelling the throw sites of the
code with the error taxonomy of the specification.  The code itself
throws untyped Error values (and the host runtime throws TypeError);
emptySubject labels the throws the spec calls EmptySubjectError,
expectationFailed the throw in Expectation.fail, timeout the rejection
produced by the await-timeout wrapper, and typeError the host
TypeError raised by property access on null, by calling a non-callable
(what the spec calls InvalidOperationError at invokes), and by
invoking a method a class does not define. -/
inductive ErrKind where
  | emptySubject
  | typeError
  | expectationFailed
  | timeout
deriving DecidableEq

/-- A thrown JS error: its category and its message string. -/
structure JsError where
  kind : ErrKind
  message : String
deriving DecidableEq

/-- Class tag of a runtime instance of the Cyan hierarchy. -/
inductive Kind where
  | box
  | giftBox
  | expectation
  | delayedExpectation
deriving DecidableEq

/-- A runtime instance of Box, GiftBox, Expectation or
DelayedExpectation: the class tag, the entity field, and the negate
field (negate is only ever set on the Expectation classes; none models
the absent or undefined field). -/
structure Inst where
  kind : Kind
  entity : Value
  negate : Option Bool

/-- Promise check used by the Box.with and Expectation.with factories
(entity instanceof Promise). -/
def isPromiseVal : Value → Bool
  | .vPromise _ _ => true
  | _ => false

/-- Box.with: wraps a value, returning a GiftBox when the value is
promise-like and a plain Box otherwise. -/
def boxWith (entity : Value) : Inst :=
  if isPromiseVal entity then ⟨.giftBox, entity, none⟩ else ⟨.box, entity, none⟩

/-- Box.empty: a Box whose entity is a fresh NullSubject sentinel. -/
def boxEmpty : Inst := ⟨.box, .vNullSubject, none⟩

/-- Expectation.with: wraps a value at assertion level, returning a
DelayedExpectation when the value is promise-like. -/
def expectationWith (entity : Value) (negate : Option Bool) : Inst :=
  if isPromiseVal entity then ⟨.delayedExpectation, entity, negate⟩
  else ⟨.expectation, entity, negate⟩

/-- The private isEmpty getter: entity instanceof NullSubject. -/
def isEmptyInst (r : Inst) : Bool :=
  match r.entity with
  | .vNullSubject => true
  | _ => false

/-- Error thrown by unwrap on an empty container. -/
def emptyUnwrapError : JsError :=
  ⟨.emptySubject, "An empty container cannot be unwrapped."⟩

/-- Box.unwrap: throws on the sentinel, otherwise returns the entity. -/
def unwrap (r : Inst) : Except JsError Value :=
  if isEmptyInst r then .error emptyUnwrapError else .ok r.entity

/-- First-match lookup in a record field list (field lists are assumed
duplicate-free, as every record built by the claims is). -/
def lookupField : List (String × Value) → String → Value
  | [], _ => .vUndefined
  | (k, v) :: fs, key => if k == key then v else lookupField fs key

/-- Own-property lookup on a non-nullish base value.  Records and
arrays (including the length property and index access) and string
length and index access are modelled; lookups on other primitives and
on the sentinel yield undefined.  Members inherited from prototypes
(such as constructor or toString on the sentinel instance) are
approximated as undefined, so the value this lookup returns for such
keys is not faithful; no claim reads an inherited key at a concrete
input, and the one statement universal over keys (the amended C2)
asserts only that the operation returns without throwing, which holds
under full prototype lookup as well (property access on an object
never throws for any key). -/
def getOwn (base : Value) (key : String) : Value :=
  match base with
  | .vObj fields => lookupField fields key
  | .vArr elems =>
    if key == "length" then .vNum (elems.length : Int)
    else
      match key.toNat? with
      | some i => elems.getD i .vUndefined
      | none => .vUndefined
  | .vStr s =>
    if key == "length" then .vNum (s.length : Int)
    else
      match key.toNat? with
      | some i =>
        if i < s.length then .vStr (String.mk [s.data.getD i 'a']) else .vUndefined
      | none => .vUndefined
  | _ => .vUndefined

/-- Host TypeError raised by property access on null or undefined. -/
def typeErrorRead : JsError :=
  ⟨.typeError, "Cannot read properties of null or undefined"⟩

/-- Property access base[key] as the code performs it on this.entity:
throws the host TypeError on a nullish base, otherwise an own-property
lookup under the JS string coercion of the key. -/
def getProp (base key : Value) : Except JsError Value :=
  match base with
  | .vNull => .error typeErrorRead
  | .vUndefined => .error typeErrorRead
  | _ => .ok (getOwn base (jsToString key))

/-- Host TypeError raised when a value that is not a function is
called (including calling an undefined method). -/
def notAFunctionError (what : String) : JsError :=
  ⟨.typeError, what ++ " is not a function"⟩

/-- Evaluator for the defunctionalised callables.  The this argument
is what invokes binds (fn.call(this.entity, ...args)); none of the
modelled callables read it. -/
def callFn : FnCode → Value → List Value → Value
  | .trueFn, _, _ => .vBool true
  | .idFn, _, args => args.getD 0 .vUndefined
  | .squareFn, _, args =>
    match args.getD 0 .vUndefined with
    | .vNum n => .vNum (n * n)
    | _ => .vUndefined

/-- Box.its and Expectation.its.  Both read this.entity[key] directly
(no unwrap, hence no empty check) and wrap the property with the
factory of their own class; the class is dispatched on the receiver
tag exactly as JS method dispatch does. -/
def its (r : Inst) (key : Value) : Except JsError Inst := do
  let theProperty ← getProp r.entity key
  match r.kind with
  | .box | .giftBox => pure (boxWith theProperty)
  | .expectation | .delayedExpectation => pure (expectationWith theProperty none)

/-- The traverse step of glom: nullish accumulators short-circuit to
undefined, otherwise index by the key. -/
def traverse (result : Value) (prop : Value) : Value :=
  match result with
  | .vNull => .vUndefined
  | .vUndefined => .vUndefined
  | _ => getOwn result (jsToString prop)

/-- Box.glom and Expectation.glom: left fold of traverse over the path
starting from the unwrapped subject (so an empty container throws),
wrapped with the factory of the receiver class. -/
def glom (r : Inst) (path : List Value) : Except JsError Inst := do
  let start ← unwrap r
  let destination := path.foldl traverse start
  match r.kind with
  | .box | .giftBox => pure (boxWith destination)
  | .expectation | .delayedExpectation => pure (expectationWith destination none)

/-- Box.apply and Expectation.apply: pass the unwrapped subject to the
caller-supplied function and wrap the result with the factory of the
receiver class. -/
def apply (r : Inst) (fn : Value → Value) : Except JsError Inst := do
  let value ← unwrap r
  match r.kind with
  | .box | .giftBox => pure (boxWith (fn value))
  | .expectation | .delayedExpectation => pure (expectationWith (fn value) none)

/-- Box.map (not overridden by Expectation): unwraps the subject and
maps the callback over it; a non-array subject has no map method, so
the call raises the host TypeError. -/
def map (r : Inst) (fn : Value → Value) : Except JsError Inst := do
  let value ← unwrap r
  match value with
  | .vArr elems => pure (boxWith (.vArr (elems.map fn)))
  | _ => .error (notAFunctionError "subject.map")

/-- Box.each: identical semantics to map (the body maps the callback
through a wrapping lambda). -/
def each (r : Inst) (fn : Value → Value) : Except JsError Inst := do
  let value ← unwrap r
  match value with
  | .vArr elems => pure (boxWith (.vArr (elems.map fun it => fn it)))
  | _ => .error (notAFunctionError "subject.map")

/-- Box.filter: unwraps the subject and keeps the elements on which
the predicate result is truthy. -/
def filter (r : Inst) (fn : Value → Value) : Except JsError Inst := do
  let value ← unwrap r
  match value with
  | .vArr elems => pure (boxWith (.vArr (elems.filter fun x => isTruthyVal (fn x))))
  | _ => .error (notAFunctionError "subject.filter")

/-- Box.invokes: reads this.entity[key] directly, calls it bound to
the entity, and wraps the return value; calling a non-callable raises
the host TypeError. -/
def invokes (r : Inst) (key : Value) (args : List Value) : Except JsError Inst := do
  let fn ← getProp r.entity key
  match fn with
  | .vFun code => pure (boxWith (callFn code r.entity args))
  | _ => .error (notAFunctionError "subject[key]")

/-- Error thrown by expect() on an empty box when no argument is
supplied (the argument test in the code is a truthiness test). -/
def emptyExpectError : JsError :=
  ⟨.emptySubject, "Error: expect() called without arguments on empty box. Please provide an argument as the subject to verify against."⟩

/-- Box.expect.  The optional key parameter is modelled as a Value
where vUndefined stands for an absent argument, which is exactly how
JS sees it (expect() and expect(undefined) are indistinguishable).  On
an empty box a truthy key becomes the subject of a fresh Expectation
and any falsy key raises emptyExpectError; otherwise a provided key is
resolved through its and unwrapped, and an absent key asserts over the
unwrapped subject. -/
def expect (r : Inst) (key : Value) : Except JsError Inst :=
  if isEmptyInst r then
    if isTruthyVal key then .ok (expectationWith key none)
    else .error emptyExpectError
  else
    match key with
    | .vUndefined => do
      let value ← unwrap r
      pure (expectationWith value none)
    | _ => do
      let b ← its r key
      let value ← unwrap b
      pure (expectationWith value none)

/-- The not accessor.  Expectation.not rewraps the unwrapped subject
through Expectation.with with the negate flag inverted (JS negation of
an undefined flag is true); DelayedExpectation.not constructs a
DelayedExpectation directly.  A plain Box has no not property, so a
chained use fails with the host TypeError; the access is modelled as
that failure. -/
def notOf (r : Inst) : Except JsError Inst :=
  match r.kind with
  | .box | .giftBox => .error (notAFunctionError "subject.not")
  | .expectation => do
    let value ← unwrap r
    pure (expectationWith value (some (!(r.negate.getD false))))
  | .delayedExpectation => do
    let value ← unwrap r
    pure ⟨.delayedExpectation, value, some (!(r.negate.getD false))⟩

/-- Expectation.applyNegation: flips the comparison result when the
negate flag is truthy, and double-negates it (the identity on Bool)
otherwise.  The isTruthy method of the class is exactly this check. -/
def applyNegation (negate : Option Bool) (value : Bool) : Bool :=
  if negate.getD false then !value else value

/-- An argument passed to toBe: either an ordinary value or an
instance of the Box hierarchy (the parameter is typed any in the
source, so callers can pass a Container or Assertion). -/
inductive Arg where
  | val (v : Value)
  | inst (b : Inst)

/-- The JS object view of a Box-hierarchy instance: its own enumerable
properties, which are entity for the Box classes and entity plus
negate for the Expectation classes (the constructor parameter property
assigns negate even when it is undefined). -/
def instAsValue (b : Inst) : Value :=
  match b.kind with
  | .box | .giftBox => .vObj [("entity", b.entity)]
  | .expectation | .delayedExpectation =>
    .vObj [("entity", b.entity),
           ("negate", match b.negate with | none => .vUndefined | some bo => .vBool bo)]

/-- The runtime value an Arg denotes. -/
def argVal : Arg → Value
  | .val v => v
  | .inst b => instAsValue b

/-- Expectation.errorDescription: the failure message template.  The
chalk color wrappers are identity on the text (they only add terminal
color codes) and are modelled as identity. -/
def errorDescription (expected actual claim : String) : String :=
  "Expected yielded value to " ++ claim ++ " to " ++ expected ++ " but got " ++ actual ++ " instead."

/-- Expectation.fail: throws the expectation failure carrying the
description built from the JSON-stringified expected and actual
values. -/
def failErr (expected actual : Value) (message : String) : JsError :=
  ⟨.expectationFailed, errorDescription (jsonStringify expected) (jsonStringify actual) message⟩

/-- Expectation.toBe (canonical variant): unwraps the subject, applies
negation to the deep-equality of subject and expected value, and
throws the failure error when the check does not pass.  The expected
argument is used as it is; this variant performs no unwrapping of a
Box-valued expected. -/
def toBe (r : Inst) (expected : Arg) : Except JsError Unit := do
  let actual ← unwrap r
  let passed := applyNegation r.negate (deepEquals actual (argVal expected))
  if passed then pure () else .error (failErr (argVal expected) actual "be deep equal")

/-- Result record of Engine.testSoftly. -/
structure TestResult where
  passed : Bool
  actual : Value

/-- Rejection produced by Timeout.wrap around the polling engine. -/
def timeoutError : JsError :=
  ⟨.timeout, "toBe timed out waiting for promise to resolve"⟩

/-- Engine.testSoftly under Timeout.wrap, specialised to the one call
site: the actual thunk re-reads the same promise (whose resolution is
constant), the expected thunk is constant, and the comparison is the
negation-adjusted deep equality.  The source loop has no bound of its
own (it polls forever); the Timeout.wrap race interrupts it at the
first suspension point past the deadline, which is modelled by the
explicit time t at which control resumes (the await of the promise and
each sleep move t forward).  The fuel argument is only a termination
device: every branch taken when the comparison never passes yields the
timeout rejection regardless of fuel, and the caller passes enough
fuel (41) to cover every poll of a 4000 ms deadline at a 100 ms delay,
so the zero-fuel branch is unreachable on passing runs. -/
def pollLoop (resolved expectedVal : Value) (negate : Option Bool)
    (delay deadline : Nat) : Nat → Nat → Except JsError TestResult
  | _, 0 => .error timeoutError
  | t, fuel + 1 =>
    if deadline ≤ t then .error timeoutError
    else if applyNegation negate (deepEquals resolved expectedVal) then .ok ⟨true, resolved⟩
    else pollLoop resolved expectedVal negate delay deadline (t + delay) fuel

/-- DelayedExpectation.toBe: when the subject is a promise, run the
polling engine under the 4000 ms Timeout.wrap (the first poll resumes
when the promise resolves); a timeout rejection propagates, and a
returned result fails the expectation if it did not pass (dead in
practice, since the loop only returns on success).  When the subject
is not a promise, passed stays false and the expectation fails
immediately. -/
def delayedToBe (r : Inst) (expected : Arg) : Except JsError Unit := do
  let actual ← unwrap r
  match actual with
  | .vPromise resolveAt resolved =>
    match pollLoop resolved (argVal expected) r.negate 100 4000 resolveAt 41 with
    | .error e => .error e
    | .ok result =>
      if result.passed then pure ()
      else .error (failErr (argVal expected) result.actual "be deep equal")
  | _ => .error (failErr (argVal expected) actual "be deep equal")

/-- Dynamic dispatch of toBe on the receiver class: the Expectation
classes run their own toBe, and a plain Box or GiftBox has no toBe
property at all, so the chained call fails with the host TypeError. -/
def toBeDyn (r : Inst) (expected : Arg) : Except JsError Unit :=
  match r.kind with
  | .box | .giftBox => .error (notAFunctionError "subject.toBe")
  | .expectation => toBe r expected
  | .delayedExpectation => delayedToBe r expected

/-- Expectation.toBe of the first (earlier, non-canonical) duplicated
variant in the source: its unwrap has no empty check, and a Box-valued
expected is unwrapped before comparison (expected instanceof Box).
The failure message of that variant concatenates the operands under JS
string coercion. -/
def toBeV1 (r : Inst) (expected : Arg) : Except JsError Unit :=
  let left := r.entity
  let right := match expected with
    | .val v => v
    | .inst b => b.entity
  let result := applyNegation r.negate (deepEquals left right)
  if result then .ok ()
  else .error ⟨.expectationFailed,
    "Verification failed." ++ jsToString left ++ " to be deep-equal to " ++ jsToString right⟩

/-- Modelled from the spec: the package index (the module that the
tests load as cyan, not present under src) exports a top-level entry
whose wrap and expect begin chains and whose unwrap with no prior
subject throws; an empty Box has exactly this interface (spec section
6), and the repository tests rely on that behavior. -/
def cyan : Inst := boxEmpty

/-- State-passing reading of apply for the immutability claim: the
method body performs no assignment to this, so the receiver after the
call is the receiver as received, paired with the ordinary result. -/
def applyS (r : Inst) (fn : Value → Value) : Except JsError Inst × Inst :=
  (apply r fn, r)

/-- State-passing reading of its (no assignment to this in the body). -/
def itsS (r : Inst) (key : Value) : Except JsError Inst × Inst :=
  (its r key, r)

/-- State-passing reading of glom (no assignment to this in the body). -/
def glomS (r : Inst) (path : List Value) : Except JsError Inst × Inst :=
  (glom r path, r)

/-- State-passing reading of invokes (no assignment to this in the body). -/
def invokesS (r : Inst) (key : Value) (args : List Value) : Except JsError Inst × Inst :=
  (invokes r key args, r)

/-- State-passing reading of map (no assignment to this in the body). -/
def mapS (r : Inst) (fn : Value → Value) : Except JsError Inst × Inst :=
  (map r fn, r)

/-- State-passing reading of each (no assignment to this in the body). -/
def eachS (r : Inst) (fn : Value → Value) : Except JsError Inst × Inst :=
  (each r fn, r)

/-- State-passing reading of filter (no assignment to this in the body). -/
def filterS (r : Inst) (fn : Value → Value) : Except JsError Inst × Inst :=
  (filter r fn, r)

/-- State-passing reading of the not accessor (no assignment to this
in the body). -/
def notS (r : Inst) : Except JsError Inst × Inst :=
  (notOf r, r)

/-- Host-function model of the callback x maps to x squared that the
scenario chains pass to apply (JS multiplication on numbers; any other
operand shape is outside every claim). -/
def squareHost : Value → Value
  | .vNum n => .vNum (n * n)
  | _ => .vUndefined

/-- Kind classification of an operation result, used to state which
error category a failing operation produces. -/
def resultErrKind : Except JsError Inst → Option ErrKind
  | .error e => some e.kind
  | .ok _ => none

/-- Prefix match of a character list against another. -/
def headMatches : List Char → List Char → Bool
  | [], _ => true
  | _ :: _, [] => false
  | c :: cs, d :: ds => c == d && headMatches cs ds

/-- Segment (substring) containment on character lists, used to state
which fragments a thrown message does and does not embed. -/
def containsSeg (needle hay : List Char) : Bool :=
  match hay with
  | [] => headMatches needle []
  | _ :: rest => headMatches needle hay || containsSeg needle rest

end Cyan

namespace Cyan

/-- Concatenation of strings concatenates their character data. -/
theorem data_append (a b : String) : (a ++ b).data = a.data ++ b.data := rfl

/-- A character list is a prefix match of itself followed by anything. -/
theorem headMatches_self_append (n b : List Char) : headMatches n (n ++ b) = true := by
  induction n with
  | nil => rfl
  | cons c cs ih => simp [headMatches, ih]

/-- A character list occurs as a segment at the head of itself followed
by anything. -/
theorem containsSeg_self_append (n b : List Char) : containsSeg n (n ++ b) = true := by
  cases n with
  | nil => cases b <;> simp [containsSeg, headMatches]
  | cons c cs =>
    simp [containsSeg]
    exact Or.inl (headMatches_self_append (c :: cs) b)

/-- Segment containment is preserved by prepending one character. -/
theorem containsSeg_cons (n : List Char) (c : Char) (h : List Char)
    (hh : containsSeg n h = true) : containsSeg n (c :: h) = true := by
  simp [containsSeg, hh]

/-- Segment containment is preserved by prepending any list. -/
theorem containsSeg_append_left (a n h : List Char)
    (hh : containsSeg n h = true) : containsSeg n (a ++ h) = true := by
  induction a with
  | nil => exact hh
  | cons c cs ih => exact containsSeg_cons n c (cs ++ h) ih

/-- An instance whose entity is not the sentinel is not empty. -/
theorem isEmptyInst_mk_false (kind : Kind) (s : Value) (negate : Option Bool)
    (hs : s ≠ Value.vNullSubject) : isEmptyInst ⟨kind, s, negate⟩ = false := by
  cases s <;> first | rfl | exact absurd rfl hs

/-- The Expectation.with factory stores the requested negate flag. -/
theorem expectationWith_negate (v : Value) (n : Option Bool) : (expectationWith v n).negate = n := by
  unfold expectationWith; split <;> rfl

/-- The Expectation.with factory stores the wrapped value as entity. -/
theorem expectationWith_entity (v : Value) (n : Option Bool) : (expectationWith v n).entity = v := by
  unfold expectationWith; split <;> rfl

/-- The Box.with factory stores the wrapped value as entity. -/
theorem boxWith_entity (v : Value) : (boxWith v).entity = v := by
  unfold boxWith; split <;> rfl

/-- Property access fails only with the read-on-nullish TypeError. -/
theorem getProp_error_kind (s k : Value) (e : JsError)
    (h : getProp s k = Except.error e) : e = typeErrorRead := by
  cases s <;> simp [getProp] at h <;> exact h.symm

/-- C1: for every non-sentinel subject s and every expected value x
that is not itself a Container or Assertion, toBe on the Assertion
over s returns normally iff deepEquals s x holds, and toBe on the
negated Assertion over s returns normally iff deepEquals s x does not
hold; in every other case toBe throws (the result is an error). -/
theorem c1_toBe_iff_deepEquals (s x : Value) (hs : s ≠ Value.vNullSubject) :
    (toBe ⟨Kind.expectation, s, none⟩ (Arg.val x) = Except.ok () ↔ deepEquals s x = true)
  ∧ (toBe ⟨Kind.expectation, s, some true⟩ (Arg.val x) = Except.ok () ↔ deepEquals s x = false) := by
  have h1 := isEmptyInst_mk_false Kind.expectation s none hs
  have h2 := isEmptyInst_mk_false Kind.expectation s (some true) hs
  constructor
  · cases hdeq : deepEquals s x <;>
      simp [toBe, unwrap, h1, applyNegation, argVal, hdeq, Except.bind, Bind.bind, pure, Except.pure]
  · cases hdeq : deepEquals s x <;>
      simp [toBe, unwrap, h2, applyNegation, argVal, hdeq, Except.bind, Bind.bind, pure, Except.pure]

/-- C1 witness: toBe over the number 4 expecting 4 passes, and the
negated form over the same pair throws. -/
theorem c1_witness :
    (toBe ⟨Kind.expectation, Value.vNum 4, none⟩ (Arg.val (Value.vNum 4)) = Except.ok ())
  ∧ (toBe ⟨Kind.expectation, Value.vNum 4, some true⟩ (Arg.val (Value.vNum 4)) ≠ Except.ok ()) := by
  have h := c1_toBe_iff_deepEquals (Value.vNum 4) (Value.vNum 4) (by intro hc; cases hc)
  exact ⟨h.1.mpr rfl, fun hc => absurd (h.2.mp hc) (by decide)⟩

/-- C2 counterexample: its of an ordinary key on the empty container
does not throw EmptySubjectError as the claim states; it returns a Box
over undefined. -/
theorem c2_counterexample :
    its boxEmpty (Value.vStr "k") = Except.ok ⟨Kind.box, Value.vUndefined, none⟩ := rfl

/-- C2 amended: for every key k, its on the empty container never
throws; the body reads this.entity directly with no empty check, so it
silently yields a Box over the property lookup on the sentinel object
(undefined for ordinary keys; members inherited from the prototype for
keys such as constructor, whose exact value the statement therefore
does not constrain). -/
theorem c2_its_on_empty_never_throws (k : Value) :
    ∃ b, its boxEmpty k = Except.ok b :=
  ⟨⟨Kind.box, Value.vUndefined, none⟩, rfl⟩

/-- C3 counterexample: expect of the falsy value false on the empty
container throws the empty-expect error instead of returning an
Assertion over false as the claim states. -/
theorem c3_counterexample :
    expect boxEmpty (Value.vBool false) = Except.error emptyExpectError := rfl

/-- C3 amended: expect of v on the empty container returns an
Assertion whose subject is v itself exactly when v is truthy; for
falsy v (false, 0, the empty string, null, undefined) the truthiness
test of the argument treats it as absent and the call throws the
empty-expect error. -/
theorem c3_expect_on_empty (v : Value) :
    (expect boxEmpty v
      = if isTruthyVal v then Except.ok (expectationWith v none) else Except.error emptyExpectError)
  ∧ (expectationWith v none).entity = v :=
  ⟨rfl, expectationWith_entity v none⟩

/-- C4 counterexample: toBe of the canonical variant on an Assertion
over 3, given as expected an Assertion over 3, fails instead of
unwrapping the expected value and passing. -/
theorem c4_counterexample :
    toBe ⟨Kind.expectation, Value.vNum 3, none⟩ (Arg.inst ⟨Kind.expectation, Value.vNum 3, none⟩)
      = Except.error (failErr (instAsValue ⟨Kind.expectation, Value.vNum 3, none⟩) (Value.vNum 3) "be deep equal") := rfl

/-- C4 amended: the canonical toBe does not unwrap a Container or
Assertion passed as expected; it deep-compares the subject against the
object view of the container itself, while only the earlier duplicated
variant (toBeV1) unwraps the expected container before comparing. -/
theorem c4_toBe_expected_not_unwrapped (s : Value) (c : Inst) (hs : s ≠ Value.vNullSubject) :
    (toBe ⟨Kind.expectation, s, none⟩ (Arg.inst c) = Except.ok () ↔ deepEquals s (instAsValue c) = true)
  ∧ (toBeV1 ⟨Kind.expectation, s, none⟩ (Arg.inst c) = Except.ok () ↔ deepEquals s c.entity = true) := by
  have h1 := isEmptyInst_mk_false Kind.expectation s none hs
  constructor
  · cases hdeq : deepEquals s (instAsValue c) <;>
      simp [toBe, unwrap, h1, applyNegation, argVal, hdeq, Except.bind, Bind.bind, pure, Except.pure]
  · cases hdeq : deepEquals s c.entity <;>
      simp [toBeV1, applyNegation, hdeq]

/-- C4 witness: on the Assertion over 3 with an Assertion over 3 as
expected, the earlier variant passes (it unwraps) while the canonical
variant does not return normally. -/
theorem c4_witness :
    (toBeV1 ⟨Kind.expectation, Value.vNum 3, none⟩ (Arg.inst ⟨Kind.expectation, Value.vNum 3, none⟩) = Except.ok ())
  ∧ (toBe ⟨Kind.expectation, Value.vNum 3, none⟩ (Arg.inst ⟨Kind.expectation, Value.vNum 3, none⟩) ≠ Except.ok ()) := by
  have h := c4_toBe_expected_not_unwrapped (Value.vNum 3) ⟨Kind.expectation, Value.vNum 3, none⟩
    (by intro hc; cases hc)
  exact ⟨h.2.mpr rfl, fun hc => absurd (h.1.mp hc) (by decide)⟩

/-- Polling that resumes at or past the deadline yields the timeout
rejection for any fuel. -/
theorem pollLoop_past_deadline (resolved expectedVal : Value) (negate : Option Bool)
    (delay t : Nat) (ht : 4000 ≤ t) :
    ∀ fuel, pollLoop resolved expectedVal negate delay 4000 t fuel = Except.error timeoutError := by
  intro fuel
  cases fuel with
  | zero => rfl
  | succ n => simp [pollLoop, ht]

/-- Polling a comparison that never passes yields the timeout
rejection for any fuel and any start time. -/
theorem pollLoop_never_passes (resolved expectedVal : Value) (negate : Option Bool)
    (delay : Nat) (h : applyNegation negate (deepEquals resolved expectedVal) = false) :
    ∀ fuel t, pollLoop resolved expectedVal negate delay 4000 t fuel = Except.error timeoutError := by
  intro fuel
  induction fuel with
  | zero => intro t; rfl
  | succ n ih =>
    intro t
    by_cases ht : 4000 ≤ t
    · simp [pollLoop, ht]
    · simpa [pollLoop, ht, h] using ih (t + delay)

/-- C5 counterexample: a deferred assertion over a promise resolving
immediately to 1, expecting 2, fails with the timeout rejection, which
is not the expectation-failure error and whose message embeds neither
the last observed actual value 1 nor the expected value 2. -/
theorem c5_counterexample :
    (delayedToBe ⟨Kind.delayedExpectation, Value.vPromise 0 (Value.vNum 1), none⟩ (Arg.val (Value.vNum 2))
      = Except.error timeoutError)
  ∧ timeoutError.kind ≠ ErrKind.expectationFailed
  ∧ containsSeg (jsonStringify (Value.vNum 1)).data timeoutError.message.data = false
  ∧ containsSeg (jsonStringify (Value.vNum 2)).data timeoutError.message.data = false :=
  ⟨rfl, by decide, by decide, by decide⟩

/-- C5 amended: a DeferredAssertion whose (possibly negated)
comparison never passes within the 4000 ms window, either because the
promise resolves only at or after the deadline or because the
comparison on the resolved value never holds, fails with the fixed
timeout rejection of the Timeout wrapper; its message mentions timing
out but embeds neither the last observed actual nor the expected
value. -/
theorem c5_timeout_failure (resolveAt : Nat) (resolved : Value) (negate : Option Bool) (x : Arg)
    (hnever : 4000 ≤ resolveAt ∨ applyNegation negate (deepEquals resolved (argVal x)) = false) :
    delayedToBe ⟨Kind.delayedExpectation, Value.vPromise resolveAt resolved, negate⟩ x
      = Except.error timeoutError := by
  have hpoll : pollLoop resolved (argVal x) negate 100 4000 resolveAt 41 = Except.error timeoutError := by
    rcases hnever with h | h
    · exact pollLoop_past_deadline resolved (argVal x) negate 100 resolveAt h 41
    · exact pollLoop_never_passes resolved (argVal x) negate 100 h 41 resolveAt
  simp [delayedToBe, unwrap, isEmptyInst, hpoll, Except.bind, Bind.bind]

/-- C5 witness: a promise resolving at 4500 ms, past the 4000 ms
deadline, times out. -/
theorem c5_witness :
    delayedToBe ⟨Kind.delayedExpectation, Value.vPromise 4500 (Value.vNum 2), none⟩ (Arg.val (Value.vNum 2))
      = Except.error timeoutError :=
  c5_timeout_failure 4500 (Value.vNum 2) none (Arg.val (Value.vNum 2)) (Or.inl (by decide))

/-- C6 counterexample: a negated toBe that fails (subject 3, expected
3 under not) throws a message that still claims be deep equal and
contains no polarity fragment not be, contradicting the claim that
negated failures report not be. -/
theorem c6_counterexample :
    (toBe ⟨Kind.expectation, Value.vNum 3, some true⟩ (Arg.val (Value.vNum 3))
      = Except.error ⟨ErrKind.expectationFailed,
          "Expected yielded value to be deep equal to 3 but got 3 instead."⟩)
  ∧ containsSeg "not be".data
      "Expected yielded value to be deep equal to 3 but got 3 instead.".data = false :=
  ⟨rfl, by decide⟩

/-- C6 amended: whenever the synchronous toBe fails, negated or not,
the thrown message is the fixed template embedding the stringified
expected value, the stringified actual value and the invariant claim
text be deep equal; negation is not reflected in the message. -/
theorem c6_failure_message (s x : Value) (negate : Option Bool)
    (hs : s ≠ Value.vNullSubject)
    (hfail : applyNegation negate (deepEquals s x) = false) :
    (toBe ⟨Kind.expectation, s, negate⟩ (Arg.val x)
      = Except.error ⟨ErrKind.expectationFailed,
          errorDescription (jsonStringify x) (jsonStringify s) "be deep equal"⟩)
  ∧ containsSeg (jsonStringify x).data
      (errorDescription (jsonStringify x) (jsonStringify s) "be deep equal").data = true
  ∧ containsSeg (jsonStringify s).data
      (errorDescription (jsonStringify x) (jsonStringify s) "be deep equal").data = true
  ∧ containsSeg "be deep equal".data
      (errorDescription (jsonStringify x) (jsonStringify s) "be deep equal").data = true := by
  have h1 := isEmptyInst_mk_false Kind.expectation s negate hs
  refine ⟨?_, ?_, ?_, ?_⟩
  · simp [toBe, unwrap, h1, argVal, hfail, failErr, Except.bind, Bind.bind]
  · simp only [errorDescription, data_append, List.append_assoc]
    exact containsSeg_append_left _ _ _ (containsSeg_append_left _ _ _
      (containsSeg_append_left _ _ _ (containsSeg_self_append _ _)))
  · simp only [errorDescription, data_append, List.append_assoc]
    exact containsSeg_append_left _ _ _ (containsSeg_append_left _ _ _
      (containsSeg_append_left _ _ _ (containsSeg_append_left _ _ _
        (containsSeg_append_left _ _ _ (containsSeg_self_append _ _)))))
  · simp only [errorDescription, data_append, List.append_assoc]
    exact containsSeg_append_left _ _ _ (containsSeg_self_append _ _)

/-- C6 witness: the failing non-negated check of subject 4 against
expected 3 throws exactly the template message. -/
theorem c6_witness :
    toBe ⟨Kind.expectation, Value.vNum 4, none⟩ (Arg.val (Value.vNum 3))
      = Except.error ⟨ErrKind.expectationFailed,
          errorDescription (jsonStringify (Value.vNum 3)) (jsonStringify (Value.vNum 4)) "be deep equal"⟩ :=
  (c6_failure_message (Value.vNum 4) (Value.vNum 3) none (by intro hc; cases hc) rfl).1

/-- C7: for every subject s and key k whose property is not callable,
invokes on a Container over s fails, and the failure is the host
TypeError, the error the specification names InvalidOperationError for
this situation (the code defines no error classes and performs no
explicit callability check; calling the non-callable raises the
error). -/
theorem c7_invokes_non_callable (s k : Value) (args : List Value)
    (hnc : ∀ code, getProp s k ≠ Except.ok (Value.vFun code)) :
    resultErrKind (invokes (boxWith s) k args) = some ErrKind.typeError := by
  have he : (boxWith s).entity = s := boxWith_entity s
  rcases hgp : getProp s k with e | v
  · have he2 : e = typeErrorRead := getProp_error_kind s k e hgp
    subst he2
    simp [invokes, he, hgp, resultErrKind, typeErrorRead, Except.bind, Bind.bind]
  · cases v <;>
      first
        | exact absurd hgp (hnc _)
        | simp [invokes, he, hgp, resultErrKind, notAFunctionError, Except.bind, Bind.bind]

/-- C7 witness: invoking key a on a record whose a property is the
number 1 fails with the TypeError category. -/
theorem c7_witness :
    resultErrKind (invokes (boxWith (Value.vObj [("a", Value.vNum 1)])) (Value.vStr "a") [])
      = some ErrKind.typeError :=
  c7_invokes_non_callable (Value.vObj [("a", Value.vNum 1)]) (Value.vStr "a") []
    (fun _ hc => Value.noConfusion (Except.ok.inj hc))

/-- C8 counterexample: the chain of the claim started from wrap
produces a plain Box after glom and apply, and a Box has no toBe
method, so the final call fails with the host TypeError instead of
evaluating and passing. -/
theorem c8_counterexample :
    (do
      let b1 ← glom (boxWith (Value.vObj [("a", Value.vObj [("b", Value.vNum 3)])]))
        [Value.vStr "a", Value.vStr "b"]
      let b2 ← apply b1 squareHost
      toBeDyn b2 (Arg.val (Value.vNum 9)))
    = Except.error (notAFunctionError "subject.toBe") := rfl

/-- C8 amended: the same chain passes when started from the expect
entry point, as the repository tests exercise it: expect on the
top-level empty box over the record with a.b = 3, then glom a b, then
apply squaring, then toBe 9 succeeds. -/
theorem c8_expect_chain_passes :
    (do
      let e1 ← expect cyan (Value.vObj [("a", Value.vObj [("b", Value.vNum 3)])])
      let e2 ← glom e1 [Value.vStr "a", Value.vStr "b"]
      let e3 ← apply e2 squareHost
      toBeDyn e3 (Arg.val (Value.vNum 9)))
    = Except.ok () := rfl

/-- C9: in the state-passing reading, every navigation operation and
the not accessor leave the receiver exactly as received (the method
bodies contain no assignment to this), and a successful not returns an
instance with the same subject and the flipped negate flag.  Object
identity (that the result is a freshly allocated instance) is a memory
notion outside the embedding; every operation constructs its result
through the class factories. -/
theorem c9_navigation_immutable (r : Inst) (k key : Value) (path : List Value)
    (fn pred : Value → Value) (args : List Value) :
    (applyS r fn).2 = r ∧ (itsS r k).2 = r ∧ (glomS r path).2 = r
  ∧ (invokesS r key args).2 = r ∧ (mapS r fn).2 = r ∧ (eachS r fn).2 = r
  ∧ (filterS r pred).2 = r ∧ (notS r).2 = r
  ∧ (match notOf r with
     | .ok rr => rr.entity = r.entity ∧ rr.negate = some (!(r.negate.getD false))
     | .error _ => True) := by
  refine ⟨rfl, rfl, rfl, rfl, rfl, rfl, rfl, rfl, ?_⟩
  rcases r with ⟨kind, entity, negate⟩
  cases kind <;> cases entity <;>
    simp [notOf, unwrap, isEmptyInst, expectationWith, isPromiseVal,
          Except.bind, Bind.bind, pure, Except.pure]

/-- Shape of its on the Expectation classes: property lookup followed
by the Expectation factory with no negate flag. -/
theorem its_on_expectation (kind : Kind)
    (hk : kind = Kind.expectation ∨ kind = Kind.delayedExpectation)
    (entity : Value) (negate : Option Bool) (k : Value) :
    its ⟨kind, entity, negate⟩ k
      = (getProp entity k).bind fun p => Except.ok (expectationWith p none) := by
  rcases hk with h | h <;> subst h <;>
    rcases hgp : getProp entity k with e0 | p <;>
      simp [its, hgp, Except.bind, Bind.bind, pure, Except.pure]

/-- Shape of its on any instance built by the Expectation factory. -/
theorem its_expectationWith (v : Value) (n : Option Bool) (k : Value) :
    its (expectationWith v n) k = (getProp v k).bind fun p => Except.ok (expectationWith p none) := by
  unfold expectationWith
  split
  · exact its_on_expectation Kind.delayedExpectation (Or.inr rfl) v n k
  · exact its_on_expectation Kind.expectation (Or.inl rfl) v n k

/-- Shape of glom on the Expectation classes. -/
theorem glom_on_expectation (kind : Kind)
    (hk : kind = Kind.expectation ∨ kind = Kind.delayedExpectation)
    (entity : Value) (negate : Option Bool) (path : List Value) :
    glom ⟨kind, entity, negate⟩ path
      = (unwrap ⟨kind, entity, negate⟩).bind
          fun start => Except.ok (expectationWith (path.foldl traverse start) none) := by
  rcases hk with h | h <;> subst h <;>
    rcases hu : unwrap ⟨_, entity, negate⟩ with e0 | v <;>
      simp [glom, hu, Except.bind, Bind.bind, pure, Except.pure]

/-- Shape of apply on the Expectation classes. -/
theorem apply_on_expectation (kind : Kind)
    (hk : kind = Kind.expectation ∨ kind = Kind.delayedExpectation)
    (entity : Value) (negate : Option Bool) (fn : Value → Value) :
    apply ⟨kind, entity, negate⟩ fn
      = (unwrap ⟨kind, entity, negate⟩).bind
          fun v => Except.ok (expectationWith (fn v) none) := by
  rcases hk with h | h <;> subst h <;>
    rcases hu : unwrap ⟨_, entity, negate⟩ with e0 | v <;>
      simp [apply, hu, Except.bind, Bind.bind, pure, Except.pure]

/-- C10: every Assertion produced by a navigation step (its, glom or
apply) on an Assertion or DeferredAssertion has its negate flag unset,
even when the receiver was negated, and consequently navigating after
not behaves exactly like navigating without it: the Assertion reached
through not followed by its equals the one reached through its
alone. -/
theorem c10_navigation_clears_negation (e : Inst) (k : Value) (path : List Value)
    (fn : Value → Value)
    (hkind : e.kind = Kind.expectation ∨ e.kind = Kind.delayedExpectation) :
    (∀ r, its e k = Except.ok r → r.negate = none)
  ∧ (∀ r, glom e path = Except.ok r → r.negate = none)
  ∧ (∀ r, apply e fn = Except.ok r → r.negate = none)
  ∧ (e.entity ≠ Value.vNullSubject → (notOf e).bind (fun e2 => its e2 k) = its e k) := by
  rcases e with ⟨kind, entity, negate⟩
  refine ⟨?_, ?_, ?_, ?_⟩
  · intro r hr
    rw [its_on_expectation kind hkind entity negate k] at hr
    rcases hgp : getProp entity k with e0 | p
    · simp [hgp, Except.bind] at hr
    · simp [hgp, Except.bind] at hr
      exact hr ▸ expectationWith_negate p none
  · intro r hr
    rw [glom_on_expectation kind hkind entity negate path] at hr
    rcases hu : unwrap ⟨kind, entity, negate⟩ with e0 | v
    · simp [hu, Except.bind] at hr
    · simp [hu, Except.bind] at hr
      exact hr ▸ expectationWith_negate _ none
  · intro r hr
    rw [apply_on_expectation kind hkind entity negate fn] at hr
    rcases hu : unwrap ⟨kind, entity, negate⟩ with e0 | v
    · simp [hu, Except.bind] at hr
    · simp [hu, Except.bind] at hr
      exact hr ▸ expectationWith_negate _ none
  · intro hent
    have hne : isEmptyInst ⟨kind, entity, negate⟩ = false :=
      isEmptyInst_mk_false kind entity negate hent
    rcases hkind with h | h <;> subst h
    · have hnot : notOf ⟨Kind.expectation, entity, negate⟩
          = Except.ok (expectationWith entity (some (!(negate.getD false)))) := by
        simp [notOf, unwrap, hne, Except.bind, Bind.bind, pure, Except.pure]
      rw [hnot]
      simp only [Except.bind]
      rw [its_expectationWith entity (some (!(negate.getD false))) k,
          its_on_expectation Kind.expectation (Or.inl rfl) entity negate k]
    · have hnot : notOf ⟨Kind.delayedExpectation, entity, negate⟩
          = Except.ok ⟨Kind.delayedExpectation, entity, some (!(negate.getD false))⟩ := by
        simp [notOf, unwrap, hne, Except.bind, Bind.bind, pure, Except.pure]
      rw [hnot]
      simp only [Except.bind]
      rw [its_on_expectation Kind.delayedExpectation (Or.inr rfl) entity (some (!(negate.getD false))) k,
          its_on_expectation Kind.delayedExpectation (Or.inr rfl) entity negate k]

/-- C10 witness: on the negated Assertion over a record with field a
equal to 1, not followed by its a equals its a alone, and the result
of its a has the negate flag unset. -/
theorem c10_witness :
    ((notOf ⟨Kind.expectation, Value.vObj [("a", Value.vNum 1)], some true⟩).bind
        (fun e2 => its e2 (Value.vStr "a"))
      = its ⟨Kind.expectation, Value.vObj [("a", Value.vNum 1)], some true⟩ (Value.vStr "a"))
  ∧ (⟨Kind.expectation, Value.vNum 1, none⟩ : Inst).negate = none := by
  have h := c10_navigation_clears_negation
    ⟨Kind.expectation, Value.vObj [("a", Value.vNum 1)], some true⟩
    (Value.vStr "a") [] (fun v => v) (Or.inl rfl)
  exact ⟨h.2.2.2 (fun hc => Value.noConfusion hc),
         h.1 ⟨Kind.expectation, Value.vNum 1, none⟩ rfl⟩

end Cyan
